import Mathlib

/-!
Shallow embedding of `pipremove_v2.py`: the dependency-graph resolver that
classifies the dependencies of a target package into safe-to-remove,
required-elsewhere, whitelisted and never-installed, together with the
run orchestration (`analyze_recursively`) and the batch-uninstall set
computation (`_remove_packages`).

Python dicts are modelled as association lists (insertion-ordered, as in
CPython), Python sets as duplicate-free lists built by add-if-absent (with
insertion order standing in for the set's unspecified iteration order; all
classification results are independent of that order), and Python
exceptions as the `PipErr` error type threaded through `Except`.
-/

deriving instance DecidableEq for Except

namespace PipRemove

/-- Package names are strings. -/
abbrev Pkg := String

/-- Python set `s.add(x)`: append only when absent. -/
def setAdd {α : Type} [DecidableEq α] (s : List α) (x : α) : List α :=
  if x ∈ s then s else s ++ [x]

/-- Python set `s.update(t)`: add every element of `t`. -/
def setUnion {α : Type} [DecidableEq α] (s t : List α) : List α :=
  t.foldl setAdd s

/-- Build a Python set from the elements of a list. -/
def setFrom {α : Type} [DecidableEq α] (t : List α) : List α :=
  setUnion [] t

/-- Python dict lookup `m[k]` on an association list (first matching key). -/
def alookup {α : Type} : List (Pkg × α) → Pkg → Option α
  | [], _ => none
  | (k, v) :: rest, key => if k = key then some v else alookup rest key

/-- Python dict assignment `m[k] = v`: replace in place if the key exists,
otherwise append at the end. -/
def dictSet {α : Type} : List (Pkg × α) → Pkg → α → List (Pkg × α)
  | [], key, v => [(key, v)]
  | (k, w) :: rest, key, v =>
      if k = key then (key, v) :: rest else (k, w) :: dictSet rest key v

/-- Python `m.setdefault(k, v)`: append `(k, v)` only when `k` is absent. -/
def setdefault {α : Type} (m : List (Pkg × α)) (key : Pkg) (v : α) :
    List (Pkg × α) :=
  if (alookup m key).isSome then m else m ++ [(key, v)]

/-- The module-level `WHITELIST` frozenset of `pipremove_v2.py`, verbatim
(including the misspelling "more-iterools" present in the source). -/
def WHITELIST : List Pkg :=
  ["pip", "setuptools", "wheel", "more-iterools", "packaging", "attrs", "click"]

/-- Python exceptions that the resolver code can raise. -/
inductive PipErr where
  /-- A built-in `ValueError` with its message. -/
  | valueError (msg : String)
  /-- `importlib.metadata.PackageNotFoundError` raised by `get_distribution`. -/
  | packageNotFoundError (pkg : Pkg)
  /-- A built-in `RuntimeError` with its message. -/
  | runtimeError (msg : String)
  /-- A built-in `KeyError` carrying the missing key. -/
  | keyError (key : Pkg)
  deriving DecidableEq

/-- The installed-package environment: `dists` models
`distributions_as_dict()` composed with `get_requirements` — for each
installed distribution its canonical name and the list of its declared
dependency names (the `d.name` of each requirement).  `aliases` models the
alias resolution performed by `importlib.metadata.distribution` (and cached
in `__alias_to_names`): a non-canonical spelling mapped to the canonical
distribution name. -/
structure Env where
  dists : List (Pkg × List Pkg)
  aliases : List (Pkg × Pkg)

/-- Canonical-name resolution as performed by `get_distribution`: a name
that is a key of `dists` resolves to itself; otherwise an alias resolves to
its canonical name provided that name is installed; otherwise resolution
fails (`PackageNotFoundError`). -/
def Env.canonical (env : Env) (name : Pkg) : Option Pkg :=
  if (alookup env.dists name).isSome then some name
  else
    match alookup env.aliases name with
    | some c => if (alookup env.dists c).isSome then some c else none
    | none => none

/-- `does_pkg_exists`: true iff `get_distribution` succeeds. -/
def does_pkg_exists (env : Env) (pkg : Pkg) : Bool :=
  (env.canonical pkg).isSome

/-- The `DependencyData` record (attrs class) of `pipremove_v2.py`. -/
structure DependencyData where
  target : Pkg
  whitelisted : List (Pkg × Pkg)
  safe_to_removed : List (Pkg × List Pkg)
  package_depenencies_required_by : List (Pkg × List (Pkg × List Pkg))
  this_requires_by : List Pkg
  never_installed : List (Pkg × Pkg)
  analyzed_packages : List Pkg
  deriving DecidableEq

/-- A fresh `DependencyData(target=target)`: every other field empty. -/
def initDependencyData (target : Pkg) : DependencyData :=
  { target := target
    whitelisted := []
    safe_to_removed := []
    package_depenencies_required_by := []
    this_requires_by := []
    never_installed := []
    analyzed_packages := [] }

/-- `PackageDependencyUninstalltionResolver.__init__`: raises
`ValueError(f"Package '{target}' not found")` when `does_pkg_exists` is
false, otherwise creates a fresh `DependencyData`. -/
def resolverInit (env : Env) (target : Pkg) : Except PipErr DependencyData :=
  if does_pkg_exists env target then .ok (initDependencyData target)
  else .error (.valueError ("Package '" ++ target ++ "' not found"))

/-- The message of the module's own (never raised) `PackageNotFound`
exception class: `"Package %r not found." % pkg`. -/
def packageNotFoundMessage (pkg : Pkg) : String :=
  "Package '" ++ pkg ++ "' not found."

/-- The double lookup of `requirements` at the start of
`_analyze_package_dependencies`: try `package_to_requirements[package]`,
on `KeyError` canonicalise via `get_distribution(package).name` and retry,
and on a second `KeyError` raise `RuntimeError("we fail again")`.  Returns
the (possibly canonicalised) package name together with its declared
dependency list. -/
def lookupReqs (env : Env) (package : Pkg) : Except PipErr (Pkg × List Pkg) :=
  match alookup env.dists package with
  | some reqs => .ok (package, reqs)
  | none =>
    match env.canonical package with
    | none => .error (.packageNotFoundError package)
    | some c =>
      match alookup env.dists c with
      | some reqs => .ok (c, reqs)
      | none => .error (.runtimeError "we fail again")

/-- The pairs `(package, entry)` added to `never_installed`: declared
dependencies for which `does_pkg_exists` is false. -/
def niPairs (env : Env) (package : Pkg) (requirements : List Pkg) :
    List (Pkg × Pkg) :=
  (requirements.filter (fun e => !(does_pkg_exists env e))).map
    (fun e => (package, e))

/-- The pairs `(package, entry)` added to `whitelisted`: declared
dependencies that exist and are in `WHITELIST`. -/
def wlPairs (env : Env) (package : Pkg) (requirements : List Pkg) :
    List (Pkg × Pkg) :=
  (requirements.filter
      (fun e => does_pkg_exists env e && decide (e ∈ WHITELIST))).map
    (fun e => (package, e))

/-- `vaild_requirements` (sic): the set of declared dependencies that exist
and are not whitelisted. -/
def vaild_requirements_of (env : Env) (requirements : List Pkg) : List Pkg :=
  setFrom (requirements.filter
      (fun e => does_pkg_exists env e && !(decide (e ∈ WHITELIST))))

/-- The packages added to `this_requires_by` when `package` is the target:
every installed package other than `package` itself, not whitelisted, whose
declared dependencies contain `package`. -/
def thisReqBy (env : Env) (package : Pkg) : List Pkg :=
  (env.dists.filter (fun qr =>
      decide (package ∈ qr.2) && decide (qr.1 ≠ package) &&
      !(decide (qr.1 ∈ WHITELIST)))).map Prod.fst

/-- The packages recorded under `package_depenencies_required_by[package][d]`:
every installed package whose declared dependencies contain `d`, other than
`package` itself, not itself a valid requirement of `package`, not
whitelisted, and not the run's target. -/
def requiredBySet (env : Env) (target package : Pkg) (valid : List Pkg)
    (d : Pkg) : List Pkg :=
  (env.dists.filter (fun qr =>
      decide (d ∈ qr.2) && decide (qr.1 ≠ package) &&
      !(decide (qr.1 ∈ valid)) && !(decide (qr.1 ∈ WHITELIST)) &&
      decide (qr.1 ≠ target))).map Prod.fst

/-- One step of the inner-dict update: when the dependent list `s` of `d` is
nonempty, `inner.setdefault(d, set()).add(q)` for each `q` in `s` amounts to
storing the previous entry (default the empty set) updated with `s`. -/
def addRequired (m : List (Pkg × List Pkg)) (d : Pkg) (s : List Pkg) :
    List (Pkg × List Pkg) :=
  if s = [] then m else dictSet m d (setUnion ((alookup m d).getD []) s)

/-- The loop over `vaild_requirements` that populates
`package_depenencies_required_by[package]`. -/
def buildInner (env : Env) (target package : Pkg) (valid : List Pkg) :
    List Pkg → List (Pkg × List Pkg) → List (Pkg × List Pkg)
  | [], m => m
  | d :: rest, m =>
      buildInner env target package valid rest
        (addRequired m d (requiredBySet env target package valid d))

/-- The inner dict stored under `package_depenencies_required_by[pkg]` at
the end of the classification of `pkg`: the loop over `vaild_requirements`
run on top of whatever `setdefault(pkg, {})` found there. -/
def classifyInner (env : Env) (st : DependencyData) (pkg : Pkg)
    (requirements : List Pkg) : List (Pkg × List Pkg) :=
  let valid := vaild_requirements_of env requirements
  buildInner env st.target pkg valid valid
    ((alookup (setdefault st.package_depenencies_required_by pkg []) pkg).getD [])

/-- The state produced by a full run of the body of
`_analyze_package_dependencies` once the requirement lookup has yielded the
canonical name `pkg` and its declared dependency list `requirements`. -/
def classifyResult (env : Env) (st : DependencyData) (pkg : Pkg)
    (requirements : List Pkg) : DependencyData :=
  let valid := vaild_requirements_of env requirements
  let inner1 := classifyInner env st pkg requirements
  { st with
    never_installed := setUnion st.never_installed (niPairs env pkg requirements)
    whitelisted := setUnion st.whitelisted (wlPairs env pkg requirements)
    this_requires_by := setUnion st.this_requires_by
      (if pkg = st.target then thisReqBy env pkg else [])
    package_depenencies_required_by :=
      dictSet (setdefault st.package_depenencies_required_by pkg []) pkg inner1
    safe_to_removed := dictSet (setdefault st.safe_to_removed pkg []) pkg
      (valid.filter (fun d => (alookup inner1 d).isNone))
    analyzed_packages := setAdd st.analyzed_packages pkg }

/-- `_analyze_package_dependencies`: no-op on whitelisted or already
analyzed packages, otherwise the full classification. -/
def analyze_package_dependencies (env : Env) (st : DependencyData)
    (package : Pkg) : Except PipErr DependencyData :=
  if package ∈ WHITELIST ∨ package ∈ st.analyzed_packages then .ok st
  else
    match lookupReqs env package with
    | .error e => .error e
    | .ok (pkg, requirements) => .ok (classifyResult env st pkg requirements)

/-- The loop `for t in to_removed: self._analyze_package_dependencies(t)`. -/
def classifyList (env : Env) : DependencyData → List Pkg →
    Except PipErr DependencyData
  | st, [] => .ok st
  | st, t :: rest =>
    match analyze_package_dependencies env st t with
    | .error e => .error e
    | .ok st' => classifyList env st' rest

/-- Python `s.remove(i)`: raises `KeyError(i)` when `i` is absent. -/
def removeFromSet (s : List Pkg) (i : Pkg) : Except PipErr (List Pkg) :=
  if i ∈ s then .ok (s.erase i) else .error (.keyError i)

/-- The inner loop of the corrective pass for one package `i`: scan the
items of `safe_to_removed` and call `this_requires_by.remove(i)` at every
value set containing `i` (there is no break in the source). -/
def passInner (i : Pkg) : List (Pkg × List Pkg) → List Pkg →
    Except PipErr (List Pkg)
  | [], cur => .ok cur
  | (_, deps) :: rest, cur =>
    if i ∈ deps then
      match removeFromSet cur i with
      | .error e => .error e
      | .ok cur' => passInner i rest cur'
    else passInner i rest cur

/-- The outer loop of the corrective pass, iterating over a snapshot
(`this_requires_by.copy()`) while mutating the live set. -/
def passOuter (items : List (Pkg × List Pkg)) : List Pkg → List Pkg →
    Except PipErr (List Pkg)
  | [], cur => .ok cur
  | i :: rest, cur =>
    match passInner i items cur with
    | .error e => .error e
    | .ok cur' => passOuter items rest cur'

/-- The corrective pass of `analyze_recursively` over `this_requires_by`. -/
def correctivePass (st : DependencyData) : Except PipErr DependencyData :=
  match passOuter st.safe_to_removed st.this_requires_by
      st.this_requires_by with
  | .error e => .error e
  | .ok trb => .ok { st with this_requires_by := trb }

/-- `analyze_recursively`: classify the target; stop with `false` when
nothing is removable; otherwise classify each removable dependency, run the
corrective pass, and return `true`. -/
def analyze_recursively (env : Env) (st0 : DependencyData) :
    Except PipErr (Bool × DependencyData) :=
  match analyze_package_dependencies env st0 st0.target with
  | .error e => .error e
  | .ok st =>
    let to_removed := (alookup st.safe_to_removed st0.target).getD []
    if to_removed = [] then .ok (false, st)
    else
      match classifyList env st to_removed with
      | .error e => .error e
      | .ok st2 =>
        match correctivePass st2 with
        | .error e => .error e
        | .ok st3 => .ok (true, st3)

/-- The set of names passed to `pip uninstall` by
`PipRemoveCLI._remove_packages`: the union of all `safe_to_removed` value
sets, plus the target. -/
def remove_packages_set (dd : DependencyData) : List Pkg :=
  setAdd (dd.safe_to_removed.foldl (fun acc x => setUnion acc x.2) [])
    dd.target

/-- The `safe_to_removed` entry of a package (empty when absent, as read by
`safe_to_removed.get(target, set())`). -/
def safeSet (st : DependencyData) (p : Pkg) : List Pkg :=
  (alookup st.safe_to_removed p).getD []

/-- The inner `package_depenencies_required_by[p]` dict (empty when absent). -/
def requiredInner (st : DependencyData) (p : Pkg) : List (Pkg × List Pkg) :=
  (alookup st.package_depenencies_required_by p).getD []

/-- Key membership in `package_depenencies_required_by[p]`. -/
def requiredKey (st : DependencyData) (p d : Pkg) : Prop :=
  (alookup (requiredInner st p) d).isSome

/-- The recorded set `package_depenencies_required_by[p][d]` (empty when
absent). -/
def requiredEntry (st : DependencyData) (p d : Pkg) : List Pkg :=
  (alookup (requiredInner st p) d).getD []

/-- Exactly one of four alternatives holds. -/
def ExactlyOne (A B C D : Prop) : Prop :=
  (A ∧ ¬B ∧ ¬C ∧ ¬D) ∨ (¬A ∧ B ∧ ¬C ∧ ¬D) ∨
  (¬A ∧ ¬B ∧ C ∧ ¬D) ∨ (¬A ∧ ¬B ∧ ¬C ∧ D)

/-! ### Lemmas about the Python set and dict models -/

theorem mem_setAdd {α : Type} [DecidableEq α] {s : List α} {x y : α} :
    y ∈ setAdd s x ↔ y ∈ s ∨ y = x := by
  unfold setAdd
  by_cases h : x ∈ s
  · rw [if_pos h]
    constructor
    · exact Or.inl
    · rintro (hy | rfl)
      · exact hy
      · exact h
  · rw [if_neg h]
    simp [List.mem_append]

theorem mem_setUnion {α : Type} [DecidableEq α] {t : List α} :
    ∀ {s : List α} {y : α}, y ∈ setUnion s t ↔ y ∈ s ∨ y ∈ t := by
  induction t with
  | nil => intro s y; simp [setUnion]
  | cons a t ih =>
    intro s y
    show y ∈ setUnion (setAdd s a) t ↔ _
    rw [ih, mem_setAdd]
    simp [List.mem_cons]
    tauto

theorem mem_setFrom {α : Type} [DecidableEq α] {t : List α} {y : α} :
    y ∈ setFrom t ↔ y ∈ t := by
  unfold setFrom
  rw [mem_setUnion]
  simp

theorem setAdd_nodup {α : Type} [DecidableEq α] {s : List α} (h : s.Nodup)
    (x : α) : (setAdd s x).Nodup := by
  unfold setAdd
  by_cases hx : x ∈ s
  · rwa [if_pos hx]
  · rw [if_neg hx]
    refine List.Nodup.append h (List.nodup_singleton x) ?_
    intro a ha hax
    rw [List.mem_singleton] at hax
    exact hx (hax ▸ ha)

theorem setUnion_nodup {α : Type} [DecidableEq α] {t : List α} :
    ∀ {s : List α}, s.Nodup → (setUnion s t).Nodup := by
  induction t with
  | nil => intro s h; exact h
  | cons a t ih =>
    intro s h
    exact ih (setAdd_nodup h a)

theorem setFrom_nodup {α : Type} [DecidableEq α] (t : List α) :
    (setFrom t).Nodup :=
  setUnion_nodup List.nodup_nil

theorem alookup_dictSet_self {α : Type} (m : List (Pkg × α)) (k : Pkg)
    (v : α) : alookup (dictSet m k v) k = some v := by
  induction m with
  | nil => simp [dictSet, alookup]
  | cons p rest ih =>
    obtain ⟨k', w⟩ := p
    unfold dictSet
    by_cases h : k' = k
    · rw [if_pos h]
      simp [alookup]
    · rw [if_neg h]
      unfold alookup
      rw [if_neg h]
      exact ih

theorem alookup_dictSet_ne {α : Type} {m : List (Pkg × α)} {k k' : Pkg}
    {v : α} (h : k' ≠ k) : alookup (dictSet m k v) k' = alookup m k' := by
  induction m with
  | nil =>
    simp only [dictSet, alookup]
    rw [if_neg (fun hkk : k = k' => h hkk.symm)]
  | cons p rest ih =>
    obtain ⟨a, b⟩ := p
    unfold dictSet
    by_cases ha : a = k
    · rw [if_pos ha]
      unfold alookup
      rw [if_neg (fun hkk => h hkk.symm), if_neg (fun hak => h (ha ▸ hak).symm)]
    · rw [if_neg ha]
      unfold alookup
      by_cases hak' : a = k'
      · rw [if_pos hak', if_pos hak']
      · rw [if_neg hak', if_neg hak']
        exact ih

theorem alookup_append_of_none {α : Type} {m : List (Pkg × α)} {k : Pkg}
    (l : List (Pkg × α)) (h : alookup m k = none) :
    alookup (m ++ l) k = alookup l k := by
  induction m with
  | nil => rfl
  | cons p rest ih =>
    obtain ⟨a, b⟩ := p
    rw [List.cons_append]
    simp only [alookup] at h ⊢
    by_cases ha : a = k
    · rw [if_pos ha] at h
      cases h
    · rw [if_neg ha] at h ⊢
      exact ih h

theorem alookup_setdefault_self {α : Type} (m : List (Pkg × α)) (k : Pkg)
    (v : α) : alookup (setdefault m k v) k = some ((alookup m k).getD v) := by
  unfold setdefault
  cases h : alookup m k with
  | some w => simp [h]
  | none =>
    simp only [h, Option.isSome_none, Bool.false_eq_true, if_false,
      Option.getD_none]
    rw [alookup_append_of_none _ h]
    simp [alookup]

theorem alookup_append_of_some {α : Type} {m : List (Pkg × α)} {k : Pkg}
    {w : α} (l : List (Pkg × α)) (h : alookup m k = some w) :
    alookup (m ++ l) k = some w := by
  induction m with
  | nil => cases h
  | cons p rest ih =>
    obtain ⟨a, b⟩ := p
    rw [List.cons_append]
    simp only [alookup] at h ⊢
    by_cases ha : a = k
    · rwa [if_pos ha] at h ⊢
    · rw [if_neg ha] at h ⊢
      exact ih h

theorem alookup_setdefault_ne {α : Type} {m : List (Pkg × α)} {k k' : Pkg}
    {v : α} (h : k' ≠ k) : alookup (setdefault m k v) k' = alookup m k' := by
  unfold setdefault
  by_cases hs : (alookup m k).isSome
  · rw [if_pos hs]
  · rw [if_neg hs]
    cases hm : alookup m k' with
    | some w => exact alookup_append_of_some _ hm
    | none =>
      rw [alookup_append_of_none _ hm]
      simp only [alookup]
      rw [if_neg (fun hkk : k = k' => h hkk.symm)]

/-! ### Lemmas about the inner required-by dict construction -/

theorem alookup_addRequired_ne {m : List (Pkg × List Pkg)} {d x : Pkg}
    {s : List Pkg} (h : x ≠ d) :
    alookup (addRequired m d s) x = alookup m x := by
  unfold addRequired
  by_cases hs : s = []
  · rw [if_pos hs]
  · rw [if_neg hs]
    exact alookup_dictSet_ne h

theorem alookup_buildInner_of_not_mem (env : Env) (t p : Pkg)
    (valid : List Pkg) :
    ∀ (l : List Pkg) (m : List (Pkg × List Pkg)) (x : Pkg), x ∉ l →
      alookup (buildInner env t p valid l m) x = alookup m x := by
  intro l
  induction l with
  | nil => intro m x _; rfl
  | cons d rest ih =>
    intro m x hx
    rw [List.mem_cons] at hx
    push_neg at hx
    show alookup (buildInner env t p valid rest
      (addRequired m d (requiredBySet env t p valid d))) x = _
    rw [ih _ x hx.2, alookup_addRequired_ne hx.1]

theorem alookup_buildInner_of_mem (env : Env) (t p : Pkg)
    (valid : List Pkg) :
    ∀ (l : List Pkg) (m : List (Pkg × List Pkg)) (x : Pkg), l.Nodup →
      x ∈ l →
      alookup (buildInner env t p valid l m) x =
        (if requiredBySet env t p valid x = [] then alookup m x
         else some (setUnion ((alookup m x).getD [])
           (requiredBySet env t p valid x))) := by
  intro l
  induction l with
  | nil => intro m x _ hx; cases hx
  | cons d rest ih =>
    intro m x hnd hx
    rw [List.nodup_cons] at hnd
    by_cases hxd : x = d
    · subst hxd
      show alookup (buildInner env t p valid rest
        (addRequired m x (requiredBySet env t p valid x))) x = _
      rw [alookup_buildInner_of_not_mem env t p valid rest _ x hnd.1]
      unfold addRequired
      by_cases hS : requiredBySet env t p valid x = []
      · rw [if_pos hS, if_pos hS]
      · rw [if_neg hS, if_neg hS, alookup_dictSet_self]
    · have hxr : x ∈ rest := by
        rcases List.mem_cons.mp hx with h | h
        · exact absurd h hxd
        · exact h
      show alookup (buildInner env t p valid rest
        (addRequired m d (requiredBySet env t p valid d))) x = _
      rw [ih _ x hnd.2 hxr, alookup_addRequired_ne hxd]

/-! ### Lemmas about the corrective pass -/

theorem passInner_ok_subset {i : Pkg} :
    ∀ {items : List (Pkg × List Pkg)} {cur out : List Pkg},
      passInner i items cur = .ok out → out ⊆ cur := by
  intro items
  induction items with
  | nil =>
    intro cur out h
    cases h
    exact fun _ hx => hx
  | cons p rest ih =>
    intro cur out h
    obtain ⟨m, deps⟩ := p
    unfold passInner at h
    by_cases hd : i ∈ deps
    · rw [if_pos hd] at h
      unfold removeFromSet at h
      by_cases hc : i ∈ cur
      · rw [if_pos hc] at h
        simp only at h
        exact fun x hx => List.erase_subset _ _ (ih h hx)
      · rw [if_neg hc] at h
        cases h
    · rw [if_neg hd] at h
      exact ih h

theorem passInner_ok_nodup {i : Pkg} :
    ∀ {items : List (Pkg × List Pkg)} {cur out : List Pkg}, cur.Nodup →
      passInner i items cur = .ok out → out.Nodup := by
  intro items
  induction items with
  | nil =>
    intro cur out hnd h
    cases h
    exact hnd
  | cons p rest ih =>
    intro cur out hnd h
    obtain ⟨m, deps⟩ := p
    unfold passInner at h
    by_cases hd : i ∈ deps
    · rw [if_pos hd] at h
      unfold removeFromSet at h
      by_cases hc : i ∈ cur
      · rw [if_pos hc] at h
        simp only at h
        exact ih (hnd.erase i) h
      · rw [if_neg hc] at h
        cases h
    · rw [if_neg hd] at h
      exact ih hnd h

theorem passInner_ok_removes {i : Pkg} :
    ∀ {items : List (Pkg × List Pkg)} {cur out : List Pkg}, cur.Nodup →
      passInner i items cur = .ok out →
      (∃ x ∈ items, i ∈ x.2) → i ∉ out := by
  intro items
  induction items with
  | nil =>
    intro cur out _ _ hex
    obtain ⟨x, hx, _⟩ := hex
    cases hx
  | cons p rest ih =>
    intro cur out hnd h hex
    obtain ⟨m, deps⟩ := p
    unfold passInner at h
    by_cases hd : i ∈ deps
    · rw [if_pos hd] at h
      unfold removeFromSet at h
      by_cases hc : i ∈ cur
      · rw [if_pos hc] at h
        simp only at h
        have hni : i ∉ cur.erase i := by
          rw [hnd.mem_erase_iff]
          exact fun hco => hco.1 rfl
        exact fun ho => hni (passInner_ok_subset h ho)
      · rw [if_neg hc] at h
        cases h
    · rw [if_neg hd] at h
      rcases hex with ⟨x, hx, hix⟩
      rcases List.mem_cons.mp hx with rfl | hxr
      · exact absurd hix hd
      · exact ih hnd h ⟨x, hxr, hix⟩

theorem passOuter_ok_subset {items : List (Pkg × List Pkg)} :
    ∀ {copy : List Pkg} {cur out : List Pkg},
      passOuter items copy cur = .ok out → out ⊆ cur := by
  intro copy
  induction copy with
  | nil =>
    intro cur out h
    cases h
    exact fun _ hx => hx
  | cons j rest ih =>
    intro cur out h
    unfold passOuter at h
    cases hj : passInner j items cur with
    | error e => rw [hj] at h; cases h
    | ok mid =>
      rw [hj] at h
      simp only at h
      exact fun x hx => passInner_ok_subset hj (ih h hx)

theorem passOuter_ok_removes {items : List (Pkg × List Pkg)} {i : Pkg} :
    ∀ {copy : List Pkg} {cur out : List Pkg}, cur.Nodup → i ∈ copy →
      (∃ x ∈ items, i ∈ x.2) →
      passOuter items copy cur = .ok out → i ∉ out := by
  intro copy
  induction copy with
  | nil =>
    intro cur out _ hic _ _
    cases hic
  | cons j rest ih =>
    intro cur out hnd hic hex h
    unfold passOuter at h
    cases hj : passInner j items cur with
    | error e => rw [hj] at h; cases h
    | ok mid =>
      rw [hj] at h
      simp only at h
      rcases List.mem_cons.mp hic with rfl | hir
      · have hmid : i ∉ mid := passInner_ok_removes hnd hj hex
        exact fun ho => hmid (passOuter_ok_subset h ho)
      · exact ih (passInner_ok_nodup hnd hj) hir hex h

/-! ### Membership characterizations of the classification sets -/

theorem mem_vaild_requirements {env : Env} {reqs : List Pkg} {d : Pkg} :
    d ∈ vaild_requirements_of env reqs ↔
      d ∈ reqs ∧ does_pkg_exists env d = true ∧ d ∉ WHITELIST := by
  unfold vaild_requirements_of
  rw [mem_setFrom, List.mem_filter]
  simp [and_assoc]

theorem mem_wlPairs {env : Env} {p d : Pkg} {reqs : List Pkg} :
    (p, d) ∈ wlPairs env p reqs ↔
      d ∈ reqs ∧ does_pkg_exists env d = true ∧ d ∈ WHITELIST := by
  unfold wlPairs
  rw [List.mem_map]
  constructor
  · rintro ⟨e, he, heq⟩
    have hed : e = d := congrArg Prod.snd heq
    subst hed
    rw [List.mem_filter] at he
    obtain ⟨h1, h2⟩ := he
    rw [Bool.and_eq_true, decide_eq_true_eq] at h2
    exact ⟨h1, h2.1, h2.2⟩
  · rintro ⟨hd, hex, hw⟩
    refine ⟨d, ?_, rfl⟩
    rw [List.mem_filter]
    refine ⟨hd, ?_⟩
    rw [Bool.and_eq_true, decide_eq_true_eq]
    exact ⟨hex, hw⟩

theorem mem_niPairs {env : Env} {p d : Pkg} {reqs : List Pkg} :
    (p, d) ∈ niPairs env p reqs ↔
      d ∈ reqs ∧ does_pkg_exists env d = false := by
  unfold niPairs
  rw [List.mem_map]
  constructor
  · rintro ⟨e, he, heq⟩
    have hed : e = d := congrArg Prod.snd heq
    subst hed
    rw [List.mem_filter] at he
    obtain ⟨h1, h2⟩ := he
    rw [Bool.not_eq_true'] at h2
    exact ⟨h1, h2⟩
  · rintro ⟨hd, hex⟩
    refine ⟨d, ?_, rfl⟩
    rw [List.mem_filter]
    refine ⟨hd, ?_⟩
    rw [Bool.not_eq_true']
    exact hex

theorem mem_thisReqBy {env : Env} {p q : Pkg} :
    q ∈ thisReqBy env p ↔
      ∃ qreqs, (q, qreqs) ∈ env.dists ∧ p ∈ qreqs ∧ q ≠ p ∧
        q ∉ WHITELIST := by
  unfold thisReqBy
  rw [List.mem_map]
  constructor
  · rintro ⟨⟨a, b⟩, hmem, rfl⟩
    rw [List.mem_filter] at hmem
    obtain ⟨h1, h2⟩ := hmem
    simp only [Bool.and_eq_true, decide_eq_true_eq, Bool.not_eq_true',
      decide_eq_false_iff_not] at h2
    exact ⟨b, h1, h2.1.1, h2.1.2, h2.2⟩
  · rintro ⟨qreqs, hmem, hp, hne, hwl⟩
    refine ⟨(q, qreqs), ?_, rfl⟩
    rw [List.mem_filter]
    refine ⟨hmem, ?_⟩
    simp only [Bool.and_eq_true, decide_eq_true_eq, Bool.not_eq_true',
      decide_eq_false_iff_not]
    exact ⟨⟨hp, hne⟩, hwl⟩

theorem mem_requiredBySet {env : Env} {t p q d : Pkg} {valid : List Pkg} :
    q ∈ requiredBySet env t p valid d ↔
      ∃ qreqs, (q, qreqs) ∈ env.dists ∧ d ∈ qreqs ∧ q ≠ p ∧
        q ∉ valid ∧ q ∉ WHITELIST ∧ q ≠ t := by
  unfold requiredBySet
  rw [List.mem_map]
  constructor
  · rintro ⟨⟨a, b⟩, hmem, rfl⟩
    rw [List.mem_filter] at hmem
    obtain ⟨h1, h2⟩ := hmem
    simp only [Bool.and_eq_true, decide_eq_true_eq, Bool.not_eq_true',
      decide_eq_false_iff_not] at h2
    exact ⟨b, h1, h2.1.1.1.1, h2.1.1.1.2, h2.1.1.2, h2.1.2, h2.2⟩
  · rintro ⟨qreqs, hmem, hd, hne, hnv, hwl, hnt⟩
    refine ⟨(q, qreqs), ?_, rfl⟩
    rw [List.mem_filter]
    refine ⟨hmem, ?_⟩
    simp only [Bool.and_eq_true, decide_eq_true_eq, Bool.not_eq_true',
      decide_eq_false_iff_not]
    exact ⟨⟨⟨⟨hd, hne⟩, hnv⟩, hwl⟩, hnt⟩

theorem vaild_requirements_nodup (env : Env) (reqs : List Pkg) :
    (vaild_requirements_of env reqs).Nodup :=
  setFrom_nodup _

/-! ### Characterization of a completed single-package classification -/

theorem analyze_ok (env : Env) (st : DependencyData) (p : Pkg)
    (reqs : List Pkg) (hwl : p ∉ WHITELIST) (han : p ∉ st.analyzed_packages)
    (hlk : alookup env.dists p = some reqs) :
    analyze_package_dependencies env st p =
      .ok (classifyResult env st p reqs) := by
  unfold analyze_package_dependencies
  rw [if_neg (by push_neg; exact ⟨hwl, han⟩)]
  unfold lookupReqs
  rw [hlk]

theorem classifyInner_fresh (env : Env) (st : DependencyData) (pkg : Pkg)
    (reqs : List Pkg)
    (hfr : alookup st.package_depenencies_required_by pkg = none) :
    classifyInner env st pkg reqs =
      buildInner env st.target pkg (vaild_requirements_of env reqs)
        (vaild_requirements_of env reqs) [] := by
  unfold classifyInner
  rw [alookup_setdefault_self, hfr]
  rfl

theorem requiredInner_after (env : Env) (st : DependencyData) (pkg : Pkg)
    (reqs : List Pkg) :
    requiredInner (classifyResult env st pkg reqs) pkg =
      classifyInner env st pkg reqs := by
  unfold requiredInner
  show (alookup (dictSet (setdefault st.package_depenencies_required_by pkg [])
    pkg (classifyInner env st pkg reqs)) pkg).getD [] = _
  rw [alookup_dictSet_self]
  rfl

theorem safeSet_after (env : Env) (st : DependencyData) (pkg : Pkg)
    (reqs : List Pkg) :
    safeSet (classifyResult env st pkg reqs) pkg =
      (vaild_requirements_of env reqs).filter
        (fun d => (alookup (classifyInner env st pkg reqs) d).isNone) := by
  unfold safeSet
  show (alookup (dictSet (setdefault st.safe_to_removed pkg []) pkg
    ((vaild_requirements_of env reqs).filter
      (fun d => (alookup (classifyInner env st pkg reqs) d).isNone))) pkg).getD
      [] = _
  rw [alookup_dictSet_self]
  rfl

theorem requiredKey_after (env : Env) (st : DependencyData) (pkg d : Pkg)
    (reqs : List Pkg)
    (hfr : alookup st.package_depenencies_required_by pkg = none) :
    requiredKey (classifyResult env st pkg reqs) pkg d ↔
      d ∈ vaild_requirements_of env reqs ∧
      requiredBySet env st.target pkg (vaild_requirements_of env reqs) d
        ≠ [] := by
  unfold requiredKey
  rw [requiredInner_after, classifyInner_fresh env st pkg reqs hfr]
  by_cases hd : d ∈ vaild_requirements_of env reqs
  · rw [alookup_buildInner_of_mem env st.target pkg _ _ _ d
      (vaild_requirements_nodup env reqs) hd]
    by_cases hS : requiredBySet env st.target pkg
        (vaild_requirements_of env reqs) d = []
    · rw [if_pos hS]
      simp [alookup, hS]
    · rw [if_neg hS]
      simp [hd, hS]
  · rw [alookup_buildInner_of_not_mem env st.target pkg _ _ _ d hd]
    simp [alookup, hd]

theorem mem_safeSet_after (env : Env) (st : DependencyData) (pkg d : Pkg)
    (reqs : List Pkg)
    (hfr : alookup st.package_depenencies_required_by pkg = none) :
    d ∈ safeSet (classifyResult env st pkg reqs) pkg ↔
      d ∈ vaild_requirements_of env reqs ∧
      requiredBySet env st.target pkg (vaild_requirements_of env reqs) d
        = [] := by
  rw [safeSet_after, List.mem_filter, classifyInner_fresh env st pkg reqs hfr]
  by_cases hd : d ∈ vaild_requirements_of env reqs
  · rw [alookup_buildInner_of_mem env st.target pkg _ _ _ d
      (vaild_requirements_nodup env reqs) hd]
    by_cases hS : requiredBySet env st.target pkg
        (vaild_requirements_of env reqs) d = []
    · rw [if_pos hS]
      simp [alookup, hd, hS]
    · rw [if_neg hS]
      simp [hd, hS]
  · simp [hd]

theorem requiredEntry_after (env : Env) (st : DependencyData) (pkg d : Pkg)
    (reqs : List Pkg)
    (hfr : alookup st.package_depenencies_required_by pkg = none)
    (hd : d ∈ vaild_requirements_of env reqs)
    (hS : requiredBySet env st.target pkg (vaild_requirements_of env reqs) d
      ≠ []) :
    requiredEntry (classifyResult env st pkg reqs) pkg d =
      setFrom (requiredBySet env st.target pkg
        (vaild_requirements_of env reqs) d) := by
  unfold requiredEntry
  rw [requiredInner_after, classifyInner_fresh env st pkg reqs hfr,
    alookup_buildInner_of_mem env st.target pkg _ _ _ d
      (vaild_requirements_nodup env reqs) hd,
    if_neg hS]
  rfl

theorem mem_foldl_setUnion {x : Pkg} :
    ∀ (l : List (Pkg × List Pkg)) (acc : List Pkg),
      x ∈ l.foldl (fun acc e => setUnion acc e.2) acc ↔
        x ∈ acc ∨ ∃ e ∈ l, x ∈ e.2 := by
  intro l
  induction l with
  | nil => intro acc; simp
  | cons p rest ih =>
    intro acc
    show x ∈ rest.foldl (fun acc e => setUnion acc e.2) (setUnion acc p.2) ↔ _
    rw [ih, mem_setUnion]
    constructor
    · rintro ((h | h) | ⟨e, he, hx⟩)
      · exact Or.inl h
      · exact Or.inr ⟨p, List.mem_cons_self p rest, h⟩
      · exact Or.inr ⟨e, List.mem_cons_of_mem p he, hx⟩
    · rintro (h | ⟨e, he, hx⟩)
      · exact Or.inl (Or.inl h)
      · rcases List.mem_cons.mp he with rfl | her
        · exact Or.inl (Or.inr hx)
        · exact Or.inr ⟨e, her, hx⟩

/-! ### Concrete environments and states used as witnesses and
counterexamples -/

/-- Two packages, `P` depending on `Q`, nothing else. -/
def envC1w : Env := ⟨[("P", ["Q"]), ("Q", [])], []⟩

/-- The state after classifying `P` in `envC1w` starting from a fresh
`DependencyData` targeting `P`. -/
def stC1w : DependencyData :=
  { target := "P", whitelisted := [], safe_to_removed := [("P", ["Q"])],
    package_depenencies_required_by := [("P", [])], this_requires_by := [],
    never_installed := [], analyzed_packages := ["P"] }

/-- `p` depends on `d` and `q`; `q` also depends on `d`; unrelated target
`t`.  Because `q` is itself one of `p`'s valid requirements, the code
excludes it from the required-by scan of `d`. -/
def envC2c : Env := ⟨[("p", ["d", "q"]), ("q", ["d"]), ("d", []), ("t", [])], []⟩

/-- The state after classifying `p` in `envC2c` from a fresh state
targeting `t`: both `d` and `q` end up safe to remove. -/
def stC2c : DependencyData :=
  { target := "t", whitelisted := [], safe_to_removed := [("p", ["d", "q"])],
    package_depenencies_required_by := [("p", [])], this_requires_by := [],
    never_installed := [], analyzed_packages := ["p"] }

/-- `p` depends on `d`; `q` (not a requirement of `p`) also depends on `d`;
unrelated target `t`. -/
def envC2w : Env := ⟨[("p", ["d"]), ("q", ["d"]), ("d", []), ("t", [])], []⟩

/-- The state after classifying `p` in `envC2w` from a fresh state
targeting `t`: `d` is required by `q`, so nothing is safe to remove. -/
def stC2w : DependencyData :=
  { target := "t", whitelisted := [], safe_to_removed := [("p", [])],
    package_depenencies_required_by := [("p", [("d", ["q"])])],
    this_requires_by := [], never_installed := [], analyzed_packages := ["p"] }

/-- A single installed package `a`; the name `nosuch` is absent. -/
def envC3 : Env := ⟨[("a", [])], []⟩

/-- `p` depends on `d` and nothing else declares `d`. -/
def envC4w : Env := ⟨[("p", ["d"]), ("d", [])], []⟩

/-- The state after classifying `p` in `envC4w` from a fresh state
targeting `p`: the orphan dependency `d` is safe to remove. -/
def stC4w : DependencyData :=
  { target := "p", whitelisted := [], safe_to_removed := [("p", ["d"])],
    package_depenencies_required_by := [("p", [])], this_requires_by := [],
    never_installed := [], analyzed_packages := ["p"] }

/-- A single installed package `T` with no dependencies. -/
def envC5w : Env := ⟨[("T", [])], []⟩

/-- The state after classifying `T` in `envC5w`: nothing removable. -/
def stC5w : DependencyData :=
  { target := "T", whitelisted := [], safe_to_removed := [("T", [])],
    package_depenencies_required_by := [("T", [])], this_requires_by := [],
    never_installed := [], analyzed_packages := ["T"] }

/-- A state entering the corrective pass with `i` both in
`this_requires_by` and removable as a dependency of `A`. -/
def stC6w : DependencyData :=
  { target := "t", whitelisted := [], safe_to_removed := [("A", ["i"])],
    package_depenencies_required_by := [], this_requires_by := ["i"],
    never_installed := [], analyzed_packages := [] }

/-- The state after the corrective pass on `stC6w`: `i` has been removed
from `this_requires_by`. -/
def stC6w' : DependencyData :=
  { target := "t", whitelisted := [], safe_to_removed := [("A", ["i"])],
    package_depenencies_required_by := [], this_requires_by := [],
    never_installed := [], analyzed_packages := [] }

/-- Empty environment for the protected-package no-op witness. -/
def envC7w : Env := ⟨[], []⟩

/-- Mutually dependent removable dependencies: target `T` depends on `A`
and `B`, which depend on each other and on `i`, while `i` depends on `T`.
After both levels of classification `i` is in `this_requires_by` and
appears in the safe-to-remove sets of both `A` and `B`. -/
def envC9 : Env :=
  ⟨[("T", ["A", "B"]), ("A", ["i", "B"]), ("B", ["i", "A"]), ("i", ["T"])], []⟩

/-! ### Claims -/

/-- C1: for every analyzed package `p` and every declared dependency `d` of
`p`, after `classify(p)` completes the pair `(p, d)` appears in exactly one
of the whitelisted set, the neverInstalled set, `safeToRemove[p]`, or the
key set of `packageDependencyRequiredBy[p]` — the classification is
exhaustive and mutually exclusive per (owner, dependency) pair. -/
theorem C1_classification_partition (env : Env) (st st' : DependencyData)
    (p d : Pkg) (reqs : List Pkg)
    (hwl : p ∉ WHITELIST) (han : p ∉ st.analyzed_packages)
    (hlk : alookup env.dists p = some reqs) (hd : d ∈ reqs)
    (hfw : (p, d) ∉ st.whitelisted) (hfn : (p, d) ∉ st.never_installed)
    (hfr : alookup st.package_depenencies_required_by p = none)
    (hrun : analyze_package_dependencies env st p = .ok st') :
    ExactlyOne ((p, d) ∈ st'.whitelisted) ((p, d) ∈ st'.never_installed)
      (d ∈ safeSet st' p) (requiredKey st' p d) := by
  rw [analyze_ok env st p reqs hwl han hlk] at hrun
  injection hrun with hst
  subst hst
  have hvd : d ∈ vaild_requirements_of env reqs ↔
      does_pkg_exists env d = true ∧ d ∉ WHITELIST := by
    rw [mem_vaild_requirements]
    simp [hd]
  have hA : ((p, d) ∈ (classifyResult env st p reqs).whitelisted) ↔
      (does_pkg_exists env d = true ∧ d ∈ WHITELIST) := by
    show (p, d) ∈ setUnion st.whitelisted (wlPairs env p reqs) ↔ _
    rw [mem_setUnion, mem_wlPairs]
    simp [hfw, hd]
  have hB : ((p, d) ∈ (classifyResult env st p reqs).never_installed) ↔
      (does_pkg_exists env d = false) := by
    show (p, d) ∈ setUnion st.never_installed (niPairs env p reqs) ↔ _
    rw [mem_setUnion, mem_niPairs]
    simp [hfn, hd]
  have hC := mem_safeSet_after env st p d reqs hfr
  have hD := requiredKey_after env st p d reqs hfr
  unfold ExactlyOne
  by_cases hex : does_pkg_exists env d = true
  · by_cases hW : d ∈ WHITELIST
    · refine Or.inl ⟨hA.mpr ⟨hex, hW⟩, ?_, ?_, ?_⟩
      · rw [hB]
        simp [hex]
      · rw [hC, hvd]
        exact fun h => h.1.2 hW
      · rw [hD, hvd]
        exact fun h => h.1.2 hW
    · by_cases hS : requiredBySet env st.target p
          (vaild_requirements_of env reqs) d = []
      · refine Or.inr (Or.inr (Or.inl ⟨?_, ?_, ?_, ?_⟩))
        · rw [hA]
          exact fun h => hW h.2
        · rw [hB]
          simp [hex]
        · exact hC.mpr ⟨hvd.mpr ⟨hex, hW⟩, hS⟩
        · rw [hD]
          exact fun h => h.2 hS
      · refine Or.inr (Or.inr (Or.inr ⟨?_, ?_, ?_, ?_⟩))
        · rw [hA]
          exact fun h => hW h.2
        · rw [hB]
          simp [hex]
        · rw [hC]
          exact fun h => hS h.2
        · exact hD.mpr ⟨hvd.mpr ⟨hex, hW⟩, hS⟩
  · have hex' : does_pkg_exists env d = false := by
      cases h : does_pkg_exists env d
      · rfl
      · exact absurd h hex
    refine Or.inr (Or.inl ⟨?_, hB.mpr hex', ?_, ?_⟩)
    · rw [hA]
      exact fun h => hex h.1
    · rw [hC, hvd]
      exact fun h => hex h.1.1
    · rw [hD, hvd]
      exact fun h => hex h.1.1

set_option maxHeartbeats 2000000 in
/-- Witness for C1: classifying `P` in `envC1w` places its dependency `Q`
in exactly one class. -/
theorem C1_classification_partition_witness :
    ExactlyOne (("P", "Q") ∈ stC1w.whitelisted)
      (("P", "Q") ∈ stC1w.never_installed)
      ("Q" ∈ safeSet stC1w "P") (requiredKey stC1w "P" "Q") :=
  C1_classification_partition envC1w (initDependencyData "P") stC1w "P" "Q"
    ["Q"] (by decide) (by decide) (by decide) (by decide) (by decide)
    (by decide) (by decide) (by decide)

/-- C2 counterexample: in `envC2c` the installed package `q` (distinct from
`p`, unprotected, not the target) declares `d`, yet after classifying `p`
the dependency `d` is in `safeToRemove[p]` and `q` is not recorded under
`packageDependencyRequiredBy[p][d]`, because the code also excludes
packages that are themselves valid requirements of `p` — a condition the
claim omits. -/
theorem C2_counterexample :
    alookup envC2c.dists "p" = some ["d", "q"] ∧
    ("q", ["d"]) ∈ envC2c.dists ∧ "d" ∈ ["d"] ∧ ("q" : Pkg) ≠ "p" ∧
    "q" ∉ WHITELIST ∧ ("q" : Pkg) ≠ "t" ∧
    does_pkg_exists envC2c "d" = true ∧ "d" ∉ WHITELIST ∧
    analyze_package_dependencies envC2c (initDependencyData "t") "p" =
      .ok stC2c ∧
    "d" ∈ safeSet stC2c "p" ∧ "q" ∉ requiredEntry stC2c "p" "d" := by
  decide

/-- C2 (amended): for every analyzed package `p` with declared dependency
`d` (present in the index and not protected), if some installed package
`q` with `q ≠ p`, `q` not protected, `q` not the run's target, and `q` not
itself among `p`'s valid (installed, unprotected) declared dependencies
declares `d`, then after `classify(p)`: `d` is not in `safeToRemove[p]`
and `q` is in `packageDependencyRequiredBy[p][d]`. -/
theorem C2_required_elsewhere_amended (env : Env) (st st' : DependencyData)
    (p d q : Pkg) (reqs qreqs : List Pkg)
    (hwl : p ∉ WHITELIST) (han : p ∉ st.analyzed_packages)
    (hlk : alookup env.dists p = some reqs)
    (hfr : alookup st.package_depenencies_required_by p = none)
    (hd : d ∈ reqs) (hex : does_pkg_exists env d = true) (hdw : d ∉ WHITELIST)
    (hq : (q, qreqs) ∈ env.dists) (hqd : d ∈ qreqs) (hqp : q ≠ p)
    (hqw : q ∉ WHITELIST) (hqt : q ≠ st.target)
    (hqv : q ∉ vaild_requirements_of env reqs)
    (hrun : analyze_package_dependencies env st p = .ok st') :
    d ∉ safeSet st' p ∧ q ∈ requiredEntry st' p d := by
  rw [analyze_ok env st p reqs hwl han hlk] at hrun
  injection hrun with hst
  subst hst
  have hdv : d ∈ vaild_requirements_of env reqs :=
    mem_vaild_requirements.mpr ⟨hd, hex, hdw⟩
  have hqS : q ∈ requiredBySet env st.target p
      (vaild_requirements_of env reqs) d :=
    mem_requiredBySet.mpr ⟨qreqs, hq, hqd, hqp, hqv, hqw, hqt⟩
  have hS : requiredBySet env st.target p
      (vaild_requirements_of env reqs) d ≠ [] := by
    intro hnil
    rw [hnil] at hqS
    cases hqS
  constructor
  · intro hmem
    exact hS ((mem_safeSet_after env st p d reqs hfr).mp hmem).2
  · rw [requiredEntry_after env st p d reqs hfr hdv hS, mem_setFrom]
    exact hqS

/-- Witness for the amended C2: in `envC2w` the package `q` keeps `d` from
being removed with `p`. -/
theorem C2_required_elsewhere_amended_witness :
    "d" ∉ safeSet stC2w "p" ∧ "q" ∈ requiredEntry stC2w "p" "d" :=
  C2_required_elsewhere_amended envC2w (initDependencyData "t") stC2w
    "p" "d" "q" ["d"] ["d"] (by decide) (by decide) (by decide) (by decide)
    (by decide) (by decide) (by decide) (by decide) (by decide) (by decide)
    (by decide) (by decide) (by decide) (by decide)

/-- C3 counterexample: for the absent target `nosuch`, the constructor
raises the built-in `ValueError` (message `Package 'nosuch' not found`)
rather than an error of the `PackageNotFound` kind — the module's own
`PackageNotFound` exception class is defined but never raised. -/
theorem C3_counterexample :
    resolverInit envC3 "nosuch" =
      .error (.valueError "Package 'nosuch' not found") ∧
    resolverInit envC3 "nosuch" ≠
      .error (.packageNotFoundError "nosuch") := by
  decide

/-- C3 (amended): for every target name absent from the package index (not
resolvable directly or via alias), constructing the resolver fails with a
`ValueError` whose message names the package, before any classification
begins — no `DependencyData` is ever created, so every ResolutionState set
is untouched. -/
theorem C3_target_missing_raises (env : Env) (t : Pkg)
    (h : does_pkg_exists env t = false) :
    resolverInit env t =
      .error (.valueError ("Package '" ++ t ++ "' not found")) ∧
    ∀ st, resolverInit env t ≠ .ok st := by
  constructor
  · simp [resolverInit, h]
  · intro st hc
    simp [resolverInit, h] at hc

/-- Witness for the amended C3 at the concrete missing target `nosuch`. -/
theorem C3_target_missing_raises_witness :
    resolverInit envC3 "nosuch" =
      .error (.valueError ("Package '" ++ "nosuch" ++ "' not found")) ∧
    ∀ st, resolverInit envC3 "nosuch" ≠ .ok st :=
  C3_target_missing_raises envC3 "nosuch" (by decide)

/-- C4: for every analyzed package `p` and dependency `d` of `p` such that
`d` is present in the index, `d` is not protected, and no installed package
other than `p` declares `d`, after `classify(p)`: `d` is in
`safeToRemove[p]`. -/
theorem C4_orphan_dep_safe (env : Env) (st st' : DependencyData) (p d : Pkg)
    (reqs : List Pkg)
    (hwl : p ∉ WHITELIST) (han : p ∉ st.analyzed_packages)
    (hlk : alookup env.dists p = some reqs)
    (hfr : alookup st.package_depenencies_required_by p = none)
    (hd : d ∈ reqs) (hex : does_pkg_exists env d = true) (hdw : d ∉ WHITELIST)
    (hno : ∀ x ∈ env.dists, x.1 ≠ p → d ∉ x.2)
    (hrun : analyze_package_dependencies env st p = .ok st') :
    d ∈ safeSet st' p := by
  rw [analyze_ok env st p reqs hwl han hlk] at hrun
  injection hrun with hst
  subst hst
  refine (mem_safeSet_after env st p d reqs hfr).mpr
    ⟨mem_vaild_requirements.mpr ⟨hd, hex, hdw⟩, ?_⟩
  by_contra hS
  obtain ⟨z, hz⟩ := List.exists_mem_of_ne_nil _ hS
  rw [mem_requiredBySet] at hz
  obtain ⟨qreqs, hqmem, hqd, hqp, _⟩ := hz
  exact hno (z, qreqs) hqmem hqp hqd

/-- Witness for C4: in `envC4w` the orphan dependency `d` of `p` is safe to
remove. -/
theorem C4_orphan_dep_safe_witness : "d" ∈ safeSet stC4w "p" :=
  C4_orphan_dep_safe envC4w (initDependencyData "p") stC4w "p" "d" ["d"]
    (by decide) (by decide) (by decide) (by decide) (by decide) (by decide)
    (by decide) (by decide) (by decide)

/-- C5: for every target whose initial classification completes,
`resolve(target)` returns false iff `safeToRemove[target]` is empty after
that first `classify(target)` step, and in the false case the run stops
with exactly the post-classification state — no further classification or
removal is proposed. -/
theorem C5_resolve_false_iff (env : Env) (st0 st1 : DependencyData)
    (h0 : does_pkg_exists env st0.target = true)
    (h1 : analyze_package_dependencies env st0 st0.target = .ok st1) :
    ((∃ st', analyze_recursively env st0 = .ok (false, st')) ↔
      safeSet st1 st0.target = []) ∧
    (safeSet st1 st0.target = [] →
      analyze_recursively env st0 = .ok (false, st1)) := by
  have hred : analyze_recursively env st0 =
      (if (alookup st1.safe_to_removed st0.target).getD [] = [] then
        .ok (false, st1)
      else
        match classifyList env st1
            ((alookup st1.safe_to_removed st0.target).getD []) with
        | .error e => .error e
        | .ok st2 =>
          match correctivePass st2 with
          | .error e => .error e
          | .ok st3 => .ok (true, st3)) := by
    unfold analyze_recursively
    rw [h1]
  rw [hred]
  unfold safeSet
  by_cases he : (alookup st1.safe_to_removed st0.target).getD [] = []
  · rw [if_pos he]
    exact ⟨⟨fun _ => he, fun _ => ⟨st1, rfl⟩⟩, fun _ => rfl⟩
  · rw [if_neg he]
    refine ⟨⟨?_, fun hc => absurd hc he⟩, fun hc => absurd hc he⟩
    rintro ⟨st', hst'⟩
    cases hcl : classifyList env st1
        ((alookup st1.safe_to_removed st0.target).getD []) with
    | error e =>
      rw [hcl] at hst'
      have hst2 : (Except.error e : Except PipErr (Bool × DependencyData)) =
          Except.ok (false, st') := hst'
      cases hst2
    | ok st2 =>
      rw [hcl] at hst'
      have hst2 : (match correctivePass st2 with
          | Except.error e =>
            (Except.error e : Except PipErr (Bool × DependencyData))
          | Except.ok st3 => Except.ok (true, st3)) =
          Except.ok (false, st') := hst'
      cases hcp : correctivePass st2 with
      | error e =>
        rw [hcp] at hst2
        have hst3 : (Except.error e : Except PipErr (Bool × DependencyData)) =
            Except.ok (false, st') := hst2
        cases hst3
      | ok st3 =>
        rw [hcp] at hst2
        have hst3 : (Except.ok (true, st3) :
            Except PipErr (Bool × DependencyData)) =
            Except.ok (false, st') := hst2
        injection hst3 with h2
        injection h2 with h3
        cases h3

/-- Witness for C5: in `envC5w` the target `T` has no removable
dependency, and `resolve` returns false with the post-classification
state. -/
theorem C5_resolve_false_iff_witness :
    ((∃ st', analyze_recursively envC5w (initDependencyData "T") =
        .ok (false, st')) ↔ safeSet stC5w "T" = []) ∧
    (safeSet stC5w "T" = [] →
      analyze_recursively envC5w (initDependencyData "T") =
        .ok (false, stC5w)) :=
  C5_resolve_false_iff envC5w (initDependencyData "T") stC5w
    (by decide) (by decide)

/-- C6: for every corrective pass that completes normally, if `i` was in
`thisRequiredBy` before the pass and `i` appears as a removable dependency
in `safeToRemove` of some analyzed package, then `i` is absent from
`thisRequiredBy` after the pass. -/
theorem C6_corrective_removes (st st' : DependencyData) (i : Pkg)
    (hnd : st.this_requires_by.Nodup)
    (hp : correctivePass st = .ok st')
    (hi : i ∈ st.this_requires_by)
    (hm : ∃ x ∈ st.safe_to_removed, i ∈ x.2) :
    i ∉ st'.this_requires_by := by
  unfold correctivePass at hp
  cases ho : passOuter st.safe_to_removed st.this_requires_by
      st.this_requires_by with
  | error e =>
    rw [ho] at hp
    cases hp
  | ok trb =>
    rw [ho] at hp
    injection hp with hst
    subst hst
    show i ∉ trb
    exact passOuter_ok_removes hnd hi hm ho

/-- Witness for C6: the corrective pass on `stC6w` removes `i`. -/
theorem C6_corrective_removes_witness : "i" ∉ stC6w'.this_requires_by :=
  C6_corrective_removes stC6w stC6w' "i" (by decide) (by decide) (by decide)
    (by decide)

/-- C7: for every package `X` in the protected set or already in
`analyzedPackages`, `classify(X)` returns immediately with the state
entirely unchanged. -/
theorem C7_protected_classify_noop (env : Env) (st : DependencyData)
    (p : Pkg) (h : p ∈ WHITELIST ∨ p ∈ st.analyzed_packages) :
    analyze_package_dependencies env st p = .ok st := by
  unfold analyze_package_dependencies
  rw [if_pos h]

/-- Witness for C7: classifying the protected package `pip` is a no-op. -/
theorem C7_protected_classify_noop_witness :
    analyze_package_dependencies envC7w (initDependencyData "x") "pip" =
      .ok (initDependencyData "x") :=
  C7_protected_classify_noop envC7w (initDependencyData "x") "pip"
    (by decide)

/-- C8: the protected set does contain `pip`, `attrs`, `click` and
`packaging`, but contrary to the claim it does not contain
`more-itertools` (the source misspells it `more-iterools`) and does not
contain `typing-extensions` at all, although both are runtime dependencies
of the resolver. -/
theorem C8_whitelist_members :
    "pip" ∈ WHITELIST ∧ "attrs" ∈ WHITELIST ∧ "click" ∈ WHITELIST ∧
    "packaging" ∈ WHITELIST ∧ "more-itertools" ∉ WHITELIST ∧
    "typing-extensions" ∉ WHITELIST ∧ "more-iterools" ∈ WHITELIST := by
  decide

/-- C9: on `envC9`, where `i` is in `thisRequiredBy` and appears as a
removable dependency of the two distinct analyzed packages `A` and `B`,
the corrective pass of `resolve` does not complete: the second
`this_requires_by.remove(i)` raises `KeyError(i)` because the inner scan
over `safeToRemove` has no break. -/
theorem C9_corrective_pass_keyerror :
    analyze_recursively envC9 (initDependencyData "T") =
      .error (.keyError "i") := by
  decide

/-- C10: the set of names passed to the batch uninstall command equals the
union of all `safeToRemove` value sets plus the target itself — in
particular the target is always included. -/
theorem C10_uninstall_set (dd : DependencyData) (x : Pkg) :
    x ∈ remove_packages_set dd ↔
      (∃ e ∈ dd.safe_to_removed, x ∈ e.2) ∨ x = dd.target := by
  unfold remove_packages_set
  rw [mem_setAdd, mem_foldl_setUnion]
  simp

end PipRemove
